import Mathlib

/-!
Verification of the rotary-encoder menu firmware (`src/src/main.cpp`).

The firmware is a single-threaded polling loop over a handful of global
variables: a main-list index `counter`, a sub-list index `sublist_counter`,
a flag `showing_sublist`, the quadrature decoder's `aLastState`, and the
button debounce timestamp `lastPressTime`.  We embed those globals as an
explicit `AppState` record, each handler function of the firmware as a pure
state transformer, and the LVGL click/poll events as an event type consumed
by a `step` function mirroring `loop()`s dispatch.
-/

namespace RotaryMenu

/-- Modulus of C `unsigned long` arithmetic (32-bit on the target MCU). -/
def UL_MOD : Nat := 4294967296

/-- Wrapping subtraction `a - b` as computed on C `unsigned long` values,
    used for `current_time - lastPressTime` in `handle_button_press`. -/
def ulSub (a b : Nat) : Nat := (a % UL_MOD + (UL_MOD - b % UL_MOD)) % UL_MOD

/-- Global `list_size` (main.cpp line 43): number of items in the main list. -/
def list_size : Int := 5

/-- Global `sublist_size` (main.cpp line 44): number of items in the sublist,
    including the "Return" entry. -/
def sublist_size : Int := 4

/-- Global `debounceDelay` (main.cpp line 48), in milliseconds. -/
def debounceDelay : Nat := 300

/-- Bound-wrapping applied after each encoder step (main.cpp lines 219-220 and
    247-248): `if (c >= size) c = 0; if (c < 0) c = size - 1;`. -/
def wrapIndex (size c : Int) : Int :=
  let c1 := if size ≤ c then 0 else c
  if c1 < 0 then size - 1 else c1

/-- One selection update: add the signed step, then wrap.  This is the
    `counter++`/`counter--` plus wrap sequence of `handle_encoder_list`
    (lines 213-220), identically repeated for `sublist_counter` in
    `handle_encoder_sublist` (lines 241-248). -/
def applyStep (size current st : Int) : Int := wrapIndex size (current + st)

/-- Indices visited by a sequence of encoder steps, one entry per step. -/
def traceSteps (size : Int) : Int → List Int → List Int
  | _, [] => []
  | current, st :: rest =>
      applyStep size current st :: traceSteps size (applyStep size current st) rest

/-- The firmware's mutable globals (main.cpp lines 40-48) together with the
    abstract "has the selected style" flag of each list / sublist widget,
    which lines 223-229 and 251-257 mutate through `lv_obj_add_style` and
    `lv_obj_remove_style`. -/
structure AppState where
  counter : Int
  sublist_counter : Int
  showing_sublist : Bool
  aLastState : Bool
  lastPressTime : Nat
  listStyles : List Bool
  sublistStyles : List Bool
deriving DecidableEq

/-- Style-sync loop of main.cpp lines 223-229 (and 251-257): for each widget
    index `i` below `size`, set its selected-style flag iff `i` equals the
    current index. -/
def syncStyles (size : Nat) (current : Int) (styles : List Bool) : List Bool :=
  (List.range size).foldl (fun st i => st.set i (decide ((i : Int) = current))) styles

/-- Single-edge quadrature decode shared by both encoder handlers (main.cpp
    lines 208-216 and 236-244): read phase A; if it differs from `aLastState`,
    emit `+1` when phase B differs from phase A and `-1` otherwise; in every
    case the new stored state is the phase-A reading (lines 231 and 259). -/
def quadPoll (aLast phaseA phaseB : Bool) : Option Int × Bool :=
  if phaseA ≠ aLast then
    (some (if phaseB ≠ phaseA then 1 else -1), phaseA)
  else
    (none, phaseA)

/-- `handle_encoder_list` (main.cpp lines 207-232): decode one quadrature
    poll; on a step, update `counter` with wrap and re-sync the main-list
    styles; always store the new `aLastState`. -/
def handle_encoder_list (s : AppState) (phaseA phaseB : Bool) : AppState :=
  match quadPoll s.aLastState phaseA phaseB with
  | (some st, aNew) =>
      let c := applyStep list_size s.counter st
      { s with counter := c,
               listStyles := syncStyles list_size.toNat c s.listStyles,
               aLastState := aNew }
  | (none, aNew) => { s with aLastState := aNew }

/-- `handle_encoder_sublist` (main.cpp lines 235-260): same decode, applied
    to `sublist_counter` and the sublist styles. -/
def handle_encoder_sublist (s : AppState) (phaseA phaseB : Bool) : AppState :=
  match quadPoll s.aLastState phaseA phaseB with
  | (some st, aNew) =>
      let c := applyStep sublist_size s.sublist_counter st
      { s with sublist_counter := c,
               sublistStyles := syncStyles sublist_size.toNat c s.sublistStyles,
               aLastState := aNew }
  | (none, aNew) => { s with aLastState := aNew }

/-- `lv_create_sublist` (main.cpp lines 183-198): set `showing_sublist` and
    build four fresh sublist widgets (fresh widgets carry no selected style).
    The `parent_item` argument is unused by the body, and `sublist_counter`
    is not touched. -/
def lv_create_sublist (s : AppState) (parent_item : Int) : AppState :=
  { s with showing_sublist := true,
           sublistStyles := List.replicate sublist_size.toNat false }

/-- `lv_remove_sublist` (main.cpp lines 201-204): delete the sublist widgets
    and clear `showing_sublist`. -/
def lv_remove_sublist (s : AppState) : AppState :=
  { s with showing_sublist := false }

/-- `list_event_handler` (main.cpp lines 150-157): a click on main item
    `index` opens the sublist only when none is showing. -/
def list_event_handler (s : AppState) (index : Int) : AppState :=
  if s.showing_sublist = false then lv_create_sublist s index else s

/-- `sublist_event_handler` (main.cpp lines 160-167): a click on sublist item
    `index` removes the sublist exactly when `index = 0` (the "Return"
    entry created first, line 189). -/
def sublist_event_handler (s : AppState) (index : Int) : AppState :=
  if index = 0 then lv_remove_sublist s else s

/-- `handle_button_press` (main.cpp lines 263-278): when the (active-low)
    button reads LOW and the debounce window has elapsed, record the press
    time and send a click to the currently highlighted item of the active
    list, which LVGL dispatches to that item's registered event handler with
    the index registered at creation. -/
def handle_button_press (s : AppState) (buttonLow : Bool) (now : Nat) : AppState :=
  if buttonLow then
    if debounceDelay < ulSub now s.lastPressTime then
      let s1 := { s with lastPressTime := now }
      if s1.showing_sublist then
        sublist_event_handler s1 s1.sublist_counter
      else
        list_event_handler s1 s1.counter
    else s
  else s

/-- Debounce gate of `handle_button_press` in isolation: returns whether a
    press event is emitted together with the new `lastPressTime`. -/
def debouncePoll (lastPress : Nat) (pressed : Bool) (now : Nat) : Bool × Nat :=
  if pressed then
    if debounceDelay < ulSub now lastPress then (true, now) else (false, lastPress)
  else (false, lastPress)

/-- Events consumed by one iteration of `loop()` (main.cpp lines 323-334):
    touch taps delivered by `lv_timer_handler` to the two click handlers, and
    a poll of the encoder pins, button pin and `millis()` clock. -/
inductive Ev where
  | tapMain (index : Int)
  | tapSub (index : Int)
  | poll (phaseA phaseB buttonLow : Bool) (now : Nat)
deriving DecidableEq

/-- One event's effect, following the dispatch of `loop()`: taps invoke the
    click handlers; a poll runs the encoder handler for the active list and
    then `handle_button_press`. -/
def step (s : AppState) : Ev → AppState
  | Ev.tapMain i => list_event_handler s i
  | Ev.tapSub i => sublist_event_handler s i
  | Ev.poll a b btn now =>
      let s1 := if s.showing_sublist then handle_encoder_sublist s a b
                else handle_encoder_list s a b
      handle_button_press s1 btn now

/-- Iterated `step` over a list of events. -/
def run (s : AppState) (evs : List Ev) : AppState := evs.foldl step s

/-- Whether the event, fired from state `s`, is an accepted button press
    (the encoder handler run first in the same poll never touches
    `lastPressTime`, so acceptance is decided against `s.lastPressTime`). -/
def pressAccepted (s : AppState) (e : Ev) : Bool :=
  match e with
  | Ev.poll _ _ btn now => btn && decide (debounceDelay < ulSub now s.lastPressTime)
  | _ => false

/-- Whether a run contains no accepted button press. -/
def quietRun (s : AppState) : List Ev → Bool
  | [] => true
  | e :: rest => !pressAccepted s e && quietRun (step s e) rest

-- Helper lemmas ------------------------------------------------------------

theorem ulSub_eq_sub (a b : Nat) (hba : b ≤ a) (ha : a < UL_MOD) :
    ulSub a b = a - b := by
  unfold ulSub UL_MOD at *
  omega

theorem applyStep_range (size current st : Int) (hsize : 1 ≤ size)
    (h0 : 0 ≤ current) (h1 : current < size) (hst : st = 1 ∨ st = -1) :
    0 ≤ applyStep size current st ∧ applyStep size current st < size := by
  rcases hst with rfl | rfl <;>
    · simp only [applyStep, wrapIndex]
      split <;> split <;> omega

theorem traceSteps_range (size : Int) (hsize : 1 ≤ size) :
    ∀ (steps : List Int) (current : Int), 0 ≤ current → current < size →
      (∀ st ∈ steps, st = 1 ∨ st = -1) →
      ∀ x ∈ traceSteps size current steps, 0 ≤ x ∧ x < size := by
  intro steps
  induction steps with
  | nil =>
      intro c _ _ _ x hx
      simp [traceSteps] at hx
  | cons st rest ih =>
      intro c hc0 hc1 hsteps x hx
      have hr := applyStep_range size c st hsize hc0 hc1 (hsteps st (by simp))
      simp only [traceSteps, List.mem_cons] at hx
      rcases hx with rfl | hx
      · exact hr
      · exact ih (applyStep size c st) hr.1 hr.2
          (fun st' h => hsteps st' (by simp [h])) x hx

-- Claim theorems -----------------------------------------------------------

/-- C1: for every list size ≥ 1 and every sequence of ±1 encoder steps from an
    in-range index, every visited index stays in `[0, size)`; the wrap is
    wrap-not-clamp (stepping `+1` at `size-1` gives `0`, stepping `-1` at `0`
    gives `size-1`); and for a size-5 list starting at 0, five `+1` steps
    visit `[1,2,3,4,0]`. -/
theorem selection_wrap_spec (size current : Int) (steps : List Int)
    (hsize : 1 ≤ size) (h0 : 0 ≤ current) (h1 : current < size)
    (hsteps : ∀ st ∈ steps, st = 1 ∨ st = -1) :
    (∀ x ∈ traceSteps size current steps, 0 ≤ x ∧ x < size) ∧
    applyStep size (size - 1) 1 = 0 ∧
    applyStep size 0 (-1) = size - 1 ∧
    traceSteps 5 0 [1, 1, 1, 1, 1] = [1, 2, 3, 4, 0] := by
  refine ⟨traceSteps_range size hsize steps current h0 h1 hsteps, ?_, ?_, by decide⟩
  · simp only [applyStep, wrapIndex]
    split <;> split <;> omega
  · simp only [applyStep, wrapIndex]
    split <;> split <;> omega

/-- Witness for C1 at size 5, start 0, steps `[+1,+1,+1,+1,+1]`. -/
theorem selection_wrap_spec_witness :
    (∀ x ∈ traceSteps 5 0 [1, 1, 1, 1, 1], 0 ≤ x ∧ x < 5) ∧
    applyStep 5 4 1 = 0 ∧
    applyStep 5 0 (-1) = 4 ∧
    traceSteps 5 0 [1, 1, 1, 1, 1] = [1, 2, 3, 4, 0] := by
  have h := selection_wrap_spec 5 0 [1, 1, 1, 1, 1] (by decide) (by decide)
    (by decide) (by decide)
  exact ⟨h.1, h.2.1, h.2.2.1, h.2.2.2⟩

theorem quadPoll_snd (al a b : Bool) : (quadPoll al a b).2 = a := by
  unfold quadPoll
  split <;> rfl

theorem handle_encoder_list_aLast (s : AppState) (a b : Bool) :
    (handle_encoder_list s a b).aLastState = a := by
  have h := quadPoll_snd s.aLastState a b
  unfold handle_encoder_list
  cases hq : quadPoll s.aLastState a b with
  | mk o aN =>
      rw [hq] at h
      cases o <;> simp_all

theorem handle_encoder_sublist_aLast (s : AppState) (a b : Bool) :
    (handle_encoder_sublist s a b).aLastState = a := by
  have h := quadPoll_snd s.aLastState a b
  unfold handle_encoder_sublist
  cases hq : quadPoll s.aLastState a b with
  | mk o aN =>
      rw [hq] at h
      cases o <;> simp_all

theorem list_event_handler_lastPress (s : AppState) (i : Int) :
    (list_event_handler s i).lastPressTime = s.lastPressTime := by
  unfold list_event_handler lv_create_sublist
  split <;> rfl

theorem sublist_event_handler_lastPress (s : AppState) (i : Int) :
    (sublist_event_handler s i).lastPressTime = s.lastPressTime := by
  unfold sublist_event_handler lv_remove_sublist
  split <;> rfl

/-- Base state as left by `setup()` (main.cpp lines 281-320): indices 0, no
    sub-list showing, phase A read low, no press recorded, no widget styled. -/
def st0 : AppState :=
  { counter := 0, sublist_counter := 0, showing_sublist := false,
    aLastState := false, lastPressTime := 0,
    listStyles := [false, false, false, false, false],
    sublistStyles := [false, false, false, false] }

/-- C2: a quadrature poll emits no step when phase A equals the stored
    `aLastState`; when it differs, it emits exactly one step, `+1` iff phase B
    differs from phase A at the change; and both encoder handlers always store
    the current phase-A reading into `aLastState` before returning. -/
theorem quadrature_decoder_spec (aLast a b : Bool) (s : AppState) :
    (a = aLast → (quadPoll aLast a b).1 = none) ∧
    (a ≠ aLast → (quadPoll aLast a b).1 = some (if b ≠ a then (1 : Int) else -1)) ∧
    (quadPoll aLast a b).2 = a ∧
    (handle_encoder_list s a b).aLastState = a ∧
    (handle_encoder_sublist s a b).aLastState = a := by
  refine ⟨?_, ?_, quadPoll_snd aLast a b,
    handle_encoder_list_aLast s a b, handle_encoder_sublist_aLast s a b⟩
  · intro h
    simp [quadPoll, h]
  · intro h
    simp [quadPoll, h]

/-- Witness for C2 on a falling phase-A edge with phase B held high. -/
theorem quadrature_decoder_spec_witness :
    (quadPoll true false true).1 = some (if (true ≠ false : Prop) then (1 : Int) else -1) ∧
    (handle_encoder_list st0 false true).aLastState = false :=
  ⟨(quadrature_decoder_spec true false true st0).2.1 (by decide),
   (quadrature_decoder_spec true false true st0).2.2.2.1⟩

/-- C3: the debounce gate emits exactly when the signal is active and
    `now - lastPressTime > 300`, updating `lastPressTime` to `now` on emission
    and keeping it otherwise; hence a second press within the window is
    dropped while one after the window (including a continuously held level,
    no release edge needed) fires again; and `handle_button_press` updates
    `lastPressTime` exactly as this gate does. -/
theorem button_debounce_spec (last t1 t2 : Nat) (pressed : Bool)
    (hba : last ≤ t1) (h12 : t1 ≤ t2) (hw : t2 < UL_MOD) :
    ((debouncePoll last pressed t1).1 = true ↔
      (pressed = true ∧ debounceDelay < t1 - last)) ∧
    ((debouncePoll last pressed t1).1 = true →
      (debouncePoll last pressed t1).2 = t1) ∧
    ((debouncePoll last pressed t1).1 = false →
      (debouncePoll last pressed t1).2 = last) ∧
    (t2 - t1 ≤ debounceDelay → (debouncePoll t1 true t2).1 = false) ∧
    (debounceDelay < t2 - t1 →
      (debouncePoll t1 true t2).1 = true ∧ (debouncePoll t1 true t2).2 = t2) ∧
    (∀ s : AppState, ∀ btn now, (handle_button_press s btn now).lastPressTime =
      (debouncePoll s.lastPressTime btn now).2) := by
  have e1 : ulSub t1 last = t1 - last := ulSub_eq_sub t1 last hba (lt_of_le_of_lt h12 hw)
  have e2 : ulSub t2 t1 = t2 - t1 := ulSub_eq_sub t2 t1 h12 hw
  refine ⟨?_, ?_, ?_, ?_, ?_, ?_⟩
  · unfold debouncePoll
    rw [e1]
    cases pressed <;> simp <;> split <;> simp_all
  · unfold debouncePoll
    cases pressed <;> simp <;> split <;> simp_all
  · unfold debouncePoll
    cases pressed <;> simp <;> split <;> simp_all
  · intro h
    have hno : ¬ debounceDelay < ulSub t2 t1 := by
      rw [e2]
      omega
    simp [debouncePoll, hno]
  · intro h
    have hyes : debounceDelay < ulSub t2 t1 := by
      rw [e2]
      exact h
    simp [debouncePoll, hyes]
  · intro s btn now
    unfold handle_button_press debouncePoll
    cases btn
    · rfl
    · simp only [if_true]
      split
      · split
        · rw [sublist_event_handler_lastPress]
        · rw [list_event_handler_lastPress]
      · rfl

/-- Witness for C3: press accepted at t=301 from boot, a repeat at t=400 is
    dropped. -/
theorem button_debounce_spec_witness :
    ((debouncePoll 0 true 301).1 = true ↔ (true = true ∧ debounceDelay < 301 - 0)) ∧
    (debouncePoll 301 true 400).1 = false :=
  ⟨(button_debounce_spec 0 301 400 true (by decide) (by decide) (by decide)).1,
   (button_debounce_spec 0 301 400 true (by decide) (by decide) (by decide)).2.2.2.1
     (by decide)⟩

/-- C4 counterexample: with the sub-list showing and the sub selection at
    index 3, an accepted button confirm does NOT return to Main — the
    terminal "Return" item of the code sits at index 0, not 3. -/
theorem sublist_terminal_pos3_cex :
    (handle_button_press { st0 with showing_sublist := true, sublist_counter := 3 }
      true 1000).showing_sublist = true := by decide

/-- C4 (amended): the sub-list's terminal (Return) item is at position 0, not
    position 3: with the sub-list showing, an accepted button-confirm at sub
    index 0 transitions back to Main, while at sub index 3 the sub-list stays
    showing. -/
theorem sublist_terminal_exit_spec (s : AppState) (now : Nat)
    (hshow : s.showing_sublist = true)
    (hacc : debounceDelay < ulSub now s.lastPressTime) :
    (s.sublist_counter = 0 → (handle_button_press s true now).showing_sublist = false) ∧
    (s.sublist_counter = 3 → (handle_button_press s true now).showing_sublist = true) := by
  constructor <;> intro hsel <;>
    simp [handle_button_press, hacc, hshow, sublist_event_handler, hsel,
      lv_remove_sublist]

/-- Witness for C4 (amended): confirm at sub index 0 exits to Main. -/
theorem sublist_terminal_exit_spec_witness :
    (handle_button_press { st0 with showing_sublist := true }
      true 1000).showing_sublist = false :=
  (sublist_terminal_exit_spec { st0 with showing_sublist := true } 1000
    (by decide) (by decide)).1 (by decide)

/-- C5 counterexample: enter the sub-list, turn the encoder one detent, tap
    Return, and re-enter: the machine is again in a Sub state but the sub
    selection index is 1, not 0 — `lv_create_sublist` never resets
    `sublist_counter`. -/
theorem sublist_selection_not_reset_cex :
    (run st0 [Ev.tapMain 2, Ev.poll true false false 0, Ev.tapSub 0,
      Ev.tapMain 2]).showing_sublist = true ∧
    (run st0 [Ev.tapMain 2, Ev.poll true false false 0, Ev.tapSub 0,
      Ev.tapMain 2]).sublist_counter = 1 := by decide

/-- C5 (amended): the Main-to-Sub transition builds fresh sub-list widgets and
    sets `showing_sublist`, but binds the existing `sublist_counter`
    unchanged — the sub selection is NOT reset to 0 on entry (it is 0 only
    from the global's one-time boot value). -/
theorem create_sublist_preserves_subindex (s : AppState) (i : Int) :
    (lv_create_sublist s i).sublist_counter = s.sublist_counter ∧
    (lv_create_sublist s i).showing_sublist = true ∧
    (list_event_handler s i).sublist_counter = s.sublist_counter := by
  refine ⟨rfl, rfl, ?_⟩
  unfold list_event_handler lv_create_sublist
  split <;> rfl

/-- C7: a tap (or a confirm routed to the main-list handler) on any main-list
    item while the sub-list is showing leaves the entire state unchanged: no
    transition, no new sub-list, no error. -/
theorem reentrant_tap_ignored_spec (s : AppState) (i : Int)
    (hs : s.showing_sublist = true) :
    step s (Ev.tapMain i) = s ∧ list_event_handler s i = s := by
  have h : list_event_handler s i = s := by
    unfold list_event_handler
    rw [hs]
    simp
  exact ⟨h, h⟩

/-- Witness for C7 at a concrete Sub state and main item 2. -/
theorem reentrant_tap_ignored_spec_witness :
    step { st0 with showing_sublist := true } (Ev.tapMain 2) =
      { st0 with showing_sublist := true } :=
  (reentrant_tap_ignored_spec { st0 with showing_sublist := true } 2 rfl).1

/-- C8: an accepted button confirm produces exactly the state a touch-tap on
    the item currently pointed to by the active Selection would produce (the
    main-list handler at `counter` when Main is active, the sub-list handler
    at `sublist_counter` when a Sub is active), plus only the debounce
    timestamp update. -/
theorem confirm_equals_tap_spec (s : AppState) (now : Nat)
    (hacc : debounceDelay < ulSub now s.lastPressTime) :
    handle_button_press s true now =
      { step s (if s.showing_sublist then Ev.tapSub s.sublist_counter
                else Ev.tapMain s.counter) with lastPressTime := now } := by
  obtain ⟨c, sc, sh, al, lp, ls, ss⟩ := s
  cases sh
  · simp [handle_button_press, hacc, step, list_event_handler, lv_create_sublist]
  · by_cases hsc : sc = 0 <;>
      simp [handle_button_press, hacc, step, sublist_event_handler,
        lv_remove_sublist, hsc]

/-- Witness for C8 from the boot state at t=1000. -/
theorem confirm_equals_tap_spec_witness :
    handle_button_press st0 true 1000 =
      { step st0 (if st0.showing_sublist then Ev.tapSub st0.sublist_counter
                  else Ev.tapMain st0.counter) with lastPressTime := 1000 } :=
  confirm_equals_tap_spec st0 1000 (by decide)

-- Render/Highlight sync lemmas ---------------------------------------------

theorem syncStyles_succ (n : Nat) (c : Int) (styles : List Bool) :
    syncStyles (n + 1) c styles =
      (syncStyles n c styles).set n (decide ((n : Int) = c)) := by
  unfold syncStyles
  rw [List.range_succ, List.foldl_append]
  rfl

theorem syncStyles_length (n : Nat) (c : Int) (styles : List Bool) :
    (syncStyles n c styles).length = styles.length := by
  induction n with
  | zero => rfl
  | succ m ih => rw [syncStyles_succ, List.length_set, ih]

theorem syncStyles_getElem (n : Nat) (c : Int) (styles : List Bool) (i : Nat) :
    (syncStyles n c styles)[i]? =
      if i < n ∧ i < styles.length then some (decide ((i : Int) = c))
      else styles[i]? := by
  induction n with
  | zero =>
      have h0 : ¬ (i < 0 ∧ i < styles.length) := by omega
      rw [if_neg h0]
      rfl
  | succ m ih =>
      rw [syncStyles_succ, List.getElem?_set, syncStyles_length, ih]
      by_cases him : m = i
      · subst him
        by_cases hlen : m < styles.length
        · rw [if_pos rfl, if_pos hlen, if_pos ⟨by omega, hlen⟩]
        · rw [if_pos rfl, if_neg hlen, if_neg (fun hc => hlen hc.2)]
          exact (List.getElem?_eq_none (by omega)).symm
      · rw [if_neg him]
        by_cases hcond : i < m ∧ i < styles.length
        · rw [if_pos hcond, if_pos ⟨by omega, hcond.2⟩]
        · rw [if_neg hcond, if_neg (by omega)]

-- Main-counter preservation lemmas ------------------------------------------

theorem list_event_handler_counter (s : AppState) (i : Int) :
    (list_event_handler s i).counter = s.counter := by
  unfold list_event_handler lv_create_sublist
  split <;> rfl

theorem sublist_event_handler_counter (s : AppState) (i : Int) :
    (sublist_event_handler s i).counter = s.counter := by
  unfold sublist_event_handler lv_remove_sublist
  split <;> rfl

theorem handle_encoder_sublist_counter (s : AppState) (a b : Bool) :
    (handle_encoder_sublist s a b).counter = s.counter := by
  unfold handle_encoder_sublist
  cases hq : quadPoll s.aLastState a b with
  | mk o aN => cases o <;> simp

theorem handle_encoder_list_lastPress (s : AppState) (a b : Bool) :
    (handle_encoder_list s a b).lastPressTime = s.lastPressTime := by
  unfold handle_encoder_list
  cases hq : quadPoll s.aLastState a b with
  | mk o aN => cases o <;> simp

theorem handle_encoder_sublist_lastPress (s : AppState) (a b : Bool) :
    (handle_encoder_sublist s a b).lastPressTime = s.lastPressTime := by
  unfold handle_encoder_sublist
  cases hq : quadPoll s.aLastState a b with
  | mk o aN => cases o <;> simp

theorem handle_button_press_counter (s : AppState) (btn : Bool) (now : Nat) :
    (handle_button_press s btn now).counter = s.counter := by
  unfold handle_button_press
  cases btn
  · rfl
  · simp only [if_true]
    split
    · split
      · rw [sublist_event_handler_counter]
      · rw [list_event_handler_counter]
    · rfl

theorem step_counter_in_sub (s : AppState) (e : Ev)
    (hs : s.showing_sublist = true) : (step s e).counter = s.counter := by
  cases e with
  | tapMain i => exact list_event_handler_counter s i
  | tapSub i => exact sublist_event_handler_counter s i
  | poll a b btn now =>
      show (handle_button_press
        (if s.showing_sublist then handle_encoder_sublist s a b
         else handle_encoder_list s a b) btn now).counter = s.counter
      rw [hs]
      simp only [if_true]
      rw [handle_button_press_counter, handle_encoder_sublist_counter]

theorem run_counter_in_sub (s : AppState) (evs : List Ev)
    (hs : s.showing_sublist = true)
    (hstay : ∀ n, n ≠ 0 → n < evs.length →
      (run s (evs.take n)).showing_sublist = true) :
    (run s evs).counter = s.counter := by
  induction evs generalizing s with
  | nil => rfl
  | cons e rest ih =>
      have h1 : (step s e).counter = s.counter := step_counter_in_sub s e hs
      cases rest with
      | nil => simpa [run] using h1
      | cons e2 r2 =>
          have hshow : (step s e).showing_sublist = true := by
            have h := hstay 1 (by omega) (by simp)
            simpa [run] using h
          have hstay2 : ∀ n, n ≠ 0 → n < (e2 :: r2).length →
              (run (step s e) ((e2 :: r2).take n)).showing_sublist = true := by
            intro n hn hlt
            have hlt2 : n + 1 < (e :: e2 :: r2).length := by
              simp only [List.length_cons] at hlt ⊢
              omega
            have h := hstay (n + 1) (by omega) hlt2
            simpa [run] using h
          have h2 := ih (step s e) hshow hstay2
          calc (run s (e :: e2 :: r2)).counter
              = (run (step s e) (e2 :: r2)).counter := by simp [run]
            _ = (step s e).counter := h2
            _ = s.counter := h1

-- Debounce-trace lemmas ------------------------------------------------------

theorem handle_button_press_rejected (s : AppState) (now : Nat)
    (h : ¬ debounceDelay < ulSub now s.lastPressTime) :
    handle_button_press s true now = s := by
  unfold handle_button_press
  simp [h]

theorem handle_button_press_lastPress_acc (s : AppState) (now : Nat)
    (h : debounceDelay < ulSub now s.lastPressTime) :
    (handle_button_press s true now).lastPressTime = now := by
  unfold handle_button_press
  simp only [if_true, eq_self_iff_true, if_pos h]
  split
  · rw [sublist_event_handler_lastPress]
  · rw [list_event_handler_lastPress]

theorem pressAccepted_false_lastPress (s : AppState) (e : Ev)
    (h : pressAccepted s e = false) :
    (step s e).lastPressTime = s.lastPressTime := by
  cases e with
  | tapMain i => exact list_event_handler_lastPress s i
  | tapSub i => exact sublist_event_handler_lastPress s i
  | poll a b btn now =>
      have henc : (if s.showing_sublist then handle_encoder_sublist s a b
          else handle_encoder_list s a b).lastPressTime = s.lastPressTime := by
        split
        · exact handle_encoder_sublist_lastPress s a b
        · exact handle_encoder_list_lastPress s a b
      show (handle_button_press
        (if s.showing_sublist then handle_encoder_sublist s a b
         else handle_encoder_list s a b) btn now).lastPressTime = s.lastPressTime
      cases btn with
      | false =>
          unfold handle_button_press
          simpa using henc
      | true =>
          simp only [pressAccepted, Bool.true_and, decide_eq_false_iff_not] at h
          have h1 : ¬ debounceDelay < ulSub now
              (if s.showing_sublist then handle_encoder_sublist s a b
               else handle_encoder_list s a b).lastPressTime := by
            rw [henc]
            exact h
          rw [handle_button_press_rejected _ _ h1]
          exact henc

theorem pressAccepted_true_lastPress (s : AppState) (a b : Bool) (now : Nat)
    (h : pressAccepted s (Ev.poll a b true now) = true) :
    (step s (Ev.poll a b true now)).lastPressTime = now := by
  simp only [pressAccepted, Bool.true_and, decide_eq_true_eq] at h
  have henc : (if s.showing_sublist then handle_encoder_sublist s a b
      else handle_encoder_list s a b).lastPressTime = s.lastPressTime := by
    split
    · exact handle_encoder_sublist_lastPress s a b
    · exact handle_encoder_list_lastPress s a b
  have h1 : debounceDelay < ulSub now
      (if s.showing_sublist then handle_encoder_sublist s a b
       else handle_encoder_list s a b).lastPressTime := by
    rw [henc]
    exact h
  show (handle_button_press
    (if s.showing_sublist then handle_encoder_sublist s a b
     else handle_encoder_list s a b) true now).lastPressTime = now
  exact handle_button_press_lastPress_acc _ now h1

theorem quietRun_lastPress (s : AppState) (evs : List Ev)
    (h : quietRun s evs = true) :
    (run s evs).lastPressTime = s.lastPressTime := by
  induction evs generalizing s with
  | nil => rfl
  | cons e rest ih =>
      simp only [quietRun, Bool.and_eq_true, Bool.not_eq_true'] at h
      calc (run s (e :: rest)).lastPressTime
          = (run (step s e) rest).lastPressTime := by simp [run]
        _ = (step s e).lastPressTime := ih (step s e) h.2
        _ = s.lastPressTime := pressAccepted_false_lastPress s e h.1

-- Remaining claim theorems ---------------------------------------------------

/-- C9: the style-sync loop leaves item `i` carrying the selected style iff
    `i` equals the current index (the style is absent from every other item),
    and it is idempotent: running it twice with unchanged index and list
    gives the same style vector as running it once. -/
theorem highlight_sync_spec (size : Nat) (c : Int) (styles : List Bool)
    (hlen : styles.length = size) :
    (∀ i, i < size →
      (syncStyles size c styles)[i]? = some (decide ((i : Int) = c))) ∧
    syncStyles size c (syncStyles size c styles) = syncStyles size c styles := by
  constructor
  · intro i hi
    rw [syncStyles_getElem, if_pos ⟨hi, by omega⟩]
  · apply List.ext_getElem?
    intro i
    by_cases hi : i < size
    · rw [syncStyles_getElem, if_pos ⟨hi, by rw [syncStyles_length]; omega⟩,
        syncStyles_getElem, if_pos ⟨hi, by omega⟩]
    · rw [syncStyles_getElem, if_neg (by omega), syncStyles_getElem,
        if_neg (by omega)]

/-- Witness for C9 on the main list: size 5, current index 2, fresh styles. -/
theorem highlight_sync_spec_witness :
    (syncStyles 5 2 [false, false, false, false, false])[2]? =
        some (decide ((2 : Int) = 2)) ∧
    syncStyles 5 2 (syncStyles 5 2 [false, false, false, false, false]) =
      syncStyles 5 2 [false, false, false, false, false] :=
  ⟨(highlight_sync_spec 5 2 [false, false, false, false, false] rfl).1 2
      (by decide),
   (highlight_sync_spec 5 2 [false, false, false, false, false] rfl).2⟩

/-- C6: while the sub-list is showing, no event — encoder polls, sub-list
    taps, or the terminal confirm that exits — changes the main-list index
    `counter`; consequently a run that stays in the Sub state up to (at most)
    a final exit event preserves `counter`, and the create/remove/click
    operations of the transition preserve it as well. -/
theorem main_index_preserved_spec (s : AppState) (evs : List Ev) (i : Int)
    (hs : s.showing_sublist = true)
    (hstay : ∀ n, n ≠ 0 → n < evs.length →
      (run s (evs.take n)).showing_sublist = true) :
    (run s evs).counter = s.counter ∧
    (lv_create_sublist s i).counter = s.counter ∧
    (lv_remove_sublist s).counter = s.counter ∧
    (list_event_handler s i).counter = s.counter ∧
    (sublist_event_handler s i).counter = s.counter :=
  ⟨run_counter_in_sub s evs hs hstay, rfl, rfl,
    list_event_handler_counter s i, sublist_event_handler_counter s i⟩

/-- Witness for C6: in a Sub state with main index 2, a sub-list tap followed
    by the Return tap exits to Main with the main index still 2. -/
theorem main_index_preserved_spec_witness :
    (run { st0 with showing_sublist := true, counter := 2 }
      [Ev.tapSub 1, Ev.tapSub 0]).counter = 2 :=
  (main_index_preserved_spec { st0 with showing_sublist := true, counter := 2 }
    [Ev.tapSub 1, Ev.tapSub 0] 0 rfl (fun n hn hlt => by
      have h2 : n < 2 := by simpa using hlt
      have h1 : n = 1 := by omega
      subst h1
      decide)).1

/-- C10: `lastPressTime` is one value shared by both navigation contexts:
    after an accepted press at time `t1` — in Main or in a Sub list, including
    the Return confirm that exits the sub-list — and any further events none
    of which is an accepted press (taps, encoder turns, context switches), a
    press at `t2` with `t2 - t1 ≤ debounceDelay` is rejected in whatever
    context is then active, and `lastPressTime` still reads `t1` afterwards. -/
theorem shared_debounce_spec (s : AppState) (a1 b1 a2 b2 : Bool) (t1 t2 : Nat)
    (evs : List Ev)
    (hacc1 : pressAccepted s (Ev.poll a1 b1 true t1) = true)
    (hquiet : quietRun (step s (Ev.poll a1 b1 true t1)) evs = true)
    (hord : t1 ≤ t2) (hw : t2 < UL_MOD) (hclose : t2 - t1 ≤ debounceDelay) :
    pressAccepted (run (step s (Ev.poll a1 b1 true t1)) evs)
      (Ev.poll a2 b2 true t2) = false ∧
    (step (run (step s (Ev.poll a1 b1 true t1)) evs)
      (Ev.poll a2 b2 true t2)).lastPressTime = t1 := by
  have h1 : (step s (Ev.poll a1 b1 true t1)).lastPressTime = t1 :=
    pressAccepted_true_lastPress s a1 b1 t1 hacc1
  have h2 : (run (step s (Ev.poll a1 b1 true t1)) evs).lastPressTime = t1 := by
    rw [quietRun_lastPress _ _ hquiet, h1]
  have hrej : pressAccepted (run (step s (Ev.poll a1 b1 true t1)) evs)
      (Ev.poll a2 b2 true t2) = false := by
    simp only [pressAccepted, h2, Bool.true_and, decide_eq_false_iff_not]
    rw [ulSub_eq_sub t2 t1 hord hw]
    omega
  exact ⟨hrej, by rw [pressAccepted_false_lastPress _ _ hrej, h2]⟩

/-- Witness for C10: press accepted at t=1000 while exiting the sub-list via
    Return, re-enter the main list's item 2, and a press at t=1200 in the new
    context is rejected. -/
theorem shared_debounce_spec_witness :
    pressAccepted (run (step { st0 with showing_sublist := true }
        (Ev.poll false false true 1000)) [Ev.tapMain 2])
      (Ev.poll false false true 1200) = false :=
  (shared_debounce_spec { st0 with showing_sublist := true } false false false
    false 1000 1200 [Ev.tapMain 2] (by decide) (by decide) (by decide)
    (by decide) (by decide)).1

end RotaryMenu
